import Mathlib

/-
Shallow embedding of the arkflow stream-processing runtime
(crates/arkflow-core/src/lib.rs, stream/mod.rs, buffer/mod.rs and
crates/arkflow-plugin/src/buffer/memory.rs, output/http.rs),
together with theorems settling the specification claims.
-/

namespace Arkflow

/-! ## Data model (arkflow-core/src/lib.rs) -/

/-- Abstraction of an Arrow `RecordBatch`: we keep the schema (as an opaque
identifier) and the row count, which is all the claims under verification
depend on. -/
structure RecordBatch where
  schemaId : Nat
  numRows : Nat
deriving DecidableEq, Repr

/-- `pub type Bytes = Vec<u8>;` -/
abbrev Bytes := List Nat

/-- `enum Content { Arrow(RecordBatch), Binary(Vec<Bytes>) }` -/
inductive Content where
  | Arrow (rb : RecordBatch)
  | Binary (v : List Bytes)
deriving DecidableEq, Repr

/-- `struct MessageBatch { pub content: Content }` -/
structure MessageBatch where
  content : Content
deriving DecidableEq, Repr

/-- `MessageBatch::new_binary` -/
def MessageBatch.new_binary (c : List Bytes) : MessageBatch :=
  { content := Content.Binary c }

/-- `MessageBatch::new_arrow` -/
def MessageBatch.new_arrow (rb : RecordBatch) : MessageBatch :=
  { content := Content.Arrow rb }

/-- `MessageBatch::len`: row count for Arrow content, payload count for
binary content. -/
def MessageBatch.len (m : MessageBatch) : Nat :=
  match m.content with
  | Content.Arrow v => v.numRows
  | Content.Binary v => v.length

/-- `MessageBatch::as_binary`: returns the payload vector on the Binary
variant and panics on the Arrow variant. The panic is modelled as `none`;
`some` is the ordinary return. -/
def MessageBatch.as_binary (m : MessageBatch) : Option (List Bytes) :=
  match m.content with
  | Content.Arrow _ => none
  | Content.Binary v => some v

/-- `enum Error` from arkflow-core/src/lib.rs. -/
inductive Error where
  | Io (s : String)
  | Serialization (s : String)
  | Config (s : String)
  | Read (s : String)
  | Process (s : String)
  | Connection (s : String)
  | Disconnection
  | Timeout
  | Unknown (s : String)
  | EOF
deriving DecidableEq, Repr

/-- Acks are modelled by opaque identifiers; an invocation trace is a list of
the identifiers of the acks that were called, in order. -/
abbrev AckId := Nat

/-! ## Stream runtime (arkflow-core/src/stream/mod.rs) -/

/-- Serde field names of `StreamConfig` exactly as declared in the source:
`pub input`, `pub pipeline`, `pub output`. There is no `buffer` field. -/
def StreamConfig.fieldNames : List String :=
  ["input", "pipeline", "output"]

/-- Field names of the `Stream` struct exactly as declared in the source:
`input`, `pipeline`, `output`, `thread_num`. There is no buffer field. -/
def Stream.fieldNames : List String :=
  ["input", "pipeline", "output", "thread_num"]

/-- Capacity of the IN queue: `flume::bounded::<(MessageBatch, Arc<dyn Ack>)>
(self.thread_num as usize * 4)`. -/
def inQueueCapacity (threadNum : Nat) : Nat :=
  threadNum * 4

/-- Capacity of the OUT queue: `flume::bounded::<(Vec<MessageBatch>,
Arc<dyn Ack>)>(self.thread_num as usize * 4)`. -/
def outQueueCapacity (threadNum : Nat) : Nat :=
  threadNum * 4

/-- A bounded-channel send: succeeds (appending at the back) only when the
queue holds fewer items than its capacity; otherwise the sender blocks,
modelled as `none`. -/
def boundedSend (cap : Nat) (q : List α) (x : α) : Option (List α) :=
  if q.length < cap then some (q ++ [x]) else none

/-- The sink loop body for one `(outputBatches, ack)` pair, first half:
`for x in &msg.0 { match self.output.write(x) ... }`. Returns the batches
passed to `output.write` in order, paired with the final `success_cnt`.
`write` abstracts the output component: `true` is `Ok(_)`, `false` is
`Err(e)` (which is only logged). -/
def sinkWrites (write : MessageBatch → Bool) :
    List MessageBatch → List MessageBatch × Nat
  | [] => ([], 0)
  | x :: xs =>
    let rest := sinkWrites write xs
    (x :: rest.1, (if write x then 1 else 0) + rest.2)

/-- The number of times the sink invokes `msg.1.ack()` for one pair:
`if *size == success_cnt { msg.1.ack().await; }` — once when the success
count equals the length of the batch list, zero times otherwise. -/
def sinkAckCount (write : MessageBatch → Bool) (batches : List MessageBatch) : Nat :=
  if batches.length = (sinkWrites write batches).2 then 1 else 0

/-- Action the ingest task (`Stream::do_input`) takes on a read error. -/
inductive IngestErrAction where
  | finishClean
  | reconnectThenResume
  | terminate
  | logAndResume
deriving DecidableEq, Repr

/-- Dispatch of `Stream::do_input` on `input.read()` returning `Err(e)`:
`EOF` returns from the task, `Disconnection` enters the reconnect loop and
then resumes reading, `Config` breaks out of the read loop, anything else is
logged and reading continues. -/
def handleReadError : Error → IngestErrAction
  | Error.EOF => IngestErrAction.finishClean
  | Error.Disconnection => IngestErrAction.reconnectThenResume
  | Error.Config _ => IngestErrAction.terminate
  | _ => IngestErrAction.logAndResume

/-- The reconnect loop of `Stream::do_input` on `Error::Disconnection`,
run against a trace of `input.connect()` outcomes (`true` is `Ok`).
Each failed attempt is logged and followed by a 5 second sleep; the loop
breaks on the first success. Returns the number of `connect` attempts made
when some attempt succeeds, `none` when every outcome in the trace fails
(the real loop would still be running). -/
def reconnectLoop : List Bool → Option Nat
  | [] => none
  | b :: bs =>
    if b then some 1
    else (reconnectLoop bs).map (fun n => n + 1)

/-- The sleeps (in seconds) the reconnect loop performs, one `5` after every
failed `connect` attempt, in order. -/
def reconnectSleeps : List Bool → List Nat
  | [] => []
  | b :: bs => if b then [] else 5 :: reconnectSleeps bs

/-- One worker's loop (`for i in 0..thread_num { ... }` body in
`Stream::run`), run over the sequence of `(MessageBatch, Ack)` pairs the
worker receives from IN. On `Ok(msgs)` from `pipeline.process` the pair
`(msgs, ack)` is sent to OUT; on `Err(e)` the error is logged and the loop
continues with the next message — nothing is sent and the ack is dropped.
Returns the pairs sent to OUT, in order. (The `send_async` failure branch
only fires once the sink is gone and is outside these claims.) -/
def workerRun (process : MessageBatch → Except Error (List MessageBatch)) :
    List (MessageBatch × AckId) → List (List MessageBatch × AckId)
  | [] => []
  | (msg, ack) :: rest =>
    match process msg with
    | Except.ok msgs => (msgs, ack) :: workerRun process rest
    | Except.error _ => workerRun process rest

/-- The acks a worker itself invokes: the worker never calls `ack()` in any
branch of its loop. -/
def workerAcks (_process : MessageBatch → Except Error (List MessageBatch))
    (_received : List (MessageBatch × AckId)) : List AckId :=
  []

/-- The components `Stream::close` can touch, in the order the source names
them. The `Stream` struct has no buffer, so no buffer component exists. -/
inductive Component where
  | input
  | pipeline
  | output
deriving DecidableEq, Repr

/-- `Stream::close`: `self.input.close().await?; self.pipeline.close().await?;
self.output.close().await?; Ok(())`. `res` gives each component's close
result. Returns the overall result and the list of components whose `close`
was actually called, in call order: the `?` operator returns the first error
immediately, so a failure stops the remaining closes. -/
def Stream.close (res : Component → Except String Unit) :
    Except String Unit × List Component :=
  match res Component.input with
  | Except.error e => (Except.error e, [Component.input])
  | Except.ok _ =>
    match res Component.pipeline with
    | Except.error e => (Except.error e, [Component.input, Component.pipeline])
    | Except.ok _ =>
      match res Component.output with
      | Except.error e =>
        (Except.error e, [Component.input, Component.pipeline, Component.output])
      | Except.ok _ =>
        (Except.ok (), [Component.input, Component.pipeline, Component.output])

/-- The sink loop of `Stream::run` over the whole sequence of
`(outputBatches, ack)` pairs it receives. In the source the sink's receive is
`output_receiver.recv_async()` — the OUT queue directly, with no intervening
buffer stage — so the sink's input here is the OUT queue's content itself.
Returns the acks invoked, in order. -/
def sinkRun (write : MessageBatch → Bool) :
    List (List MessageBatch × AckId) → List AckId
  | [] => []
  | (batches, ack) :: rest =>
    if batches.length = (sinkWrites write batches).2 then
      ack :: sinkRun write rest
    else
      sinkRun write rest

/-! ## Buffer registry (arkflow-core/src/buffer/mod.rs) -/

/-- A registered `BufferBuilder` is opaque to these claims; an identifier
stands for it. -/
abbrev BufferBuilderId := Nat

/-- `struct BufferConfig { buffer_type: String, config: Option<Value> }`;
the free-form `config` fragment plays no role in the claims and is omitted. -/
structure BufferConfig where
  buffer_type : String
deriving DecidableEq, Repr

/-- `register_buffer_builder`: panics (`none`) when `BUFFER_BUILDERS`
already contains the type name, otherwise inserts the builder. The HashMap is
modelled as an association list with unique keys; insertion appends. -/
def register_buffer_builder (builders : List (String × BufferBuilderId))
    (type_name : String) (builder : BufferBuilderId) :
    Option (List (String × BufferBuilderId)) :=
  if builders.any (fun p => p.1 == type_name) then none
  else some (builders ++ [(type_name, builder)])

/-- `BufferConfig::build`: looks the type tag up in `BUFFER_BUILDERS` and
delegates to the found builder (abstracted to returning its identifier), or
returns `Error::Config("Unknown buffer type: ...")` when the tag is not
registered. -/
def BufferConfig.build (builders : List (String × BufferBuilderId))
    (c : BufferConfig) : Except Error BufferBuilderId :=
  match builders.find? (fun p => p.1 == c.buffer_type) with
  | some p => Except.ok p.2
  | none => Except.error (Error.Config ("Unknown buffer type: " ++ c.buffer_type))

/-! ## Memory buffer (arkflow-plugin/src/buffer/memory.rs) -/

/-- Modelled from the spec: `MessageBatch::schema` and the `Into<RecordBatch>`
conversion invoked by `MemoryBuffer::process_messages` are not part of the
provided `lib.rs`. Following the spec — the buffer "concatenates all columnar
batches under a common schema" and "a binary batch may be converted to a
columnar one by parsing" — an Arrow batch keeps its record batch, and a
binary batch converts to a record batch of a fixed binary schema (id 0) with
one row per payload. -/
def MessageBatch.toRecordBatch : MessageBatch → RecordBatch
  | { content := Content.Arrow rb } => rb
  | { content := Content.Binary v } => { schemaId := 0, numRows := v.length }

/-- Modelled from the spec: `MessageBatch::schema` (see
`MessageBatch.toRecordBatch`) — the schema of the batch's columnar form. -/
def MessageBatch.schema (m : MessageBatch) : Nat :=
  m.toRecordBatch.schemaId

/-- Arrow's `concat_batches(&schema, &batches)`: succeeds, concatenating the
rows, exactly when every batch has the target schema; otherwise it reports
differing schemas. -/
def concatBatches (schema : Nat) (xs : List RecordBatch) :
    Except String RecordBatch :=
  if xs.all (fun rb => rb.schemaId == schema) then
    Except.ok { schemaId := schema, numRows := (xs.map RecordBatch.numRows).sum }
  else
    Except.error "batches have different schemas"

/-- `struct ArrayAck(Vec<Arc<dyn Ack>>)`. -/
structure ArrayAck where
  acks : List AckId
deriving DecidableEq, Repr

/-- One call of `ArrayAck::ack`: `for ack in self.0.iter() { ack.ack().await }`
— the invocation trace of a single call is each constituent ack once, in
order. -/
def ArrayAck.ack (a : ArrayAck) : List AckId :=
  a.acks

/-- The invocation trace of `n` successive calls to `ArrayAck::ack`. -/
def ArrayAck.ackCalls (a : ArrayAck) (n : Nat) : List AckId :=
  (List.replicate n a.ack).flatten

/-- `MemoryBuffer`'s queue is a `VecDeque` with `write` doing `push_front`;
the list's head is the deque's front. -/
def MemoryBuffer.writeQueue (q : List (MessageBatch × AckId))
    (msg : MessageBatch) (ack : AckId) : List (MessageBatch × AckId) :=
  (msg, ack) :: q

/-- The `while let Some((msg, ack)) = queue_lock.pop_back()` drain loop:
elements leave from the back of the deque, so the drained order is the
reverse of the front-to-back order. -/
def drainPopBack : List α → List α
  | [] => []
  | x :: xs => drainPopBack xs ++ [x]

/-- `MemoryBuffer::process_messages` against the current queue content.
Returns the source's `Result<Option<(MessageBatch, Arc<dyn Ack>)>>` together
with the queue content left behind (the drain loop always empties a nonempty
queue, also on the merge-error path). -/
def process_messages (q : List (MessageBatch × AckId)) :
    Except Error (Option (MessageBatch × ArrayAck)) × List (MessageBatch × AckId) :=
  if q.isEmpty then
    (Except.ok none, q)
  else
    let drained := drainPopBack q
    let messages := drained.map Prod.fst
    let acks := drained.map Prod.snd
    match messages with
    | [] => (Except.ok none, [])
    | m0 :: _ =>
      match concatBatches m0.schema (messages.map MessageBatch.toRecordBatch) with
      | Except.error e =>
        (Except.error (Error.Process ("Merge batches failed: " ++ e)), [])
      | Except.ok new_batch =>
        (Except.ok (some (MessageBatch.new_arrow new_batch, { acks := acks })), [])

/-! ## HTTP output retry loop (arkflow-plugin/src/output/http.rs) -/

/-- Outcome of one `request_builder.try_clone().unwrap().send().await`
attempt, after the status check: a success status, a non-success HTTP status
with its body, or a transport error. -/
inductive AttemptResult where
  | success
  | httpFailure (status : String) (body : String)
  | requestError (msg : String)
deriving DecidableEq, Repr

/-- The `last_error` value one attempt produces: `none` on success,
otherwise the `Process` or `Connection` error the source constructs. -/
def attemptError : AttemptResult → Option Error
  | AttemptResult.success => none
  | AttemptResult.httpFailure status body =>
    some (Error.Process
      ("HTTP Request Failed: Status code " ++ status ++ ", response: " ++ body))
  | AttemptResult.requestError m =>
    some (Error.Connection ("HTTP request error: " ++ m))

/-- The `while retry_count <= self.config.retry_count` loop of
`HttpOutput::send`, unrolled on the number of attempts still permitted
(`remaining = retry_count_config + 1 - k`, where `k` is the index of the
current attempt, starting at 0). Returns the number of attempts made, the
sleeps performed (in ms, in order: after a failed attempt `k` with another
attempt remaining the source sleeps `100 * 2^((k+1)-1)` ms), and the final
result — `Ok` on the first success, else the error of the last attempt. -/
def sendAux (outcomes : Nat → AttemptResult) :
    Nat → Nat → Nat × List Nat × Except Error Unit
  | 0, _ => (0, [], Except.error (Error.Unknown "Unknown HTTP error"))
  | 1, k =>
    match attemptError (outcomes k) with
    | none => (1, [], Except.ok ())
    | some e => (1, [], Except.error e)
  | remaining + 2, k =>
    match attemptError (outcomes k) with
    | none => (1, [], Except.ok ())
    | some _ =>
      let rest := sendAux outcomes (remaining + 1) (k + 1)
      (rest.1 + 1, 100 * 2 ^ k :: rest.2.1, rest.2.2)

/-- `HttpOutput::send` for a payload whose attempt outcomes are `outcomes`:
`retry_count` starts at 0 and the loop runs while it is `≤` the configured
`retry_count`, so at most `retry_count_config + 1` attempts are made. -/
def HttpOutput.send (retry_count_config : Nat)
    (outcomes : Nat → AttemptResult) : Nat × List Nat × Except Error Unit :=
  sendAux outcomes (retry_count_config + 1) 0

/-! ## Helper lemmas -/

theorem sinkWrites_fst (write : MessageBatch → Bool) :
    ∀ batches : List MessageBatch, (sinkWrites write batches).1 = batches := by
  intro batches
  induction batches with
  | nil => rfl
  | cons x xs ih => simp [sinkWrites, ih]

theorem sinkWrites_snd_eq_filter (write : MessageBatch → Bool) :
    ∀ batches : List MessageBatch,
      (sinkWrites write batches).2 = (batches.filter write).length := by
  intro batches
  induction batches with
  | nil => rfl
  | cons x xs ih =>
    by_cases h : write x
    · simp [sinkWrites, List.filter, h, ih]
      omega
    · simp [sinkWrites, List.filter, h, ih]

theorem sinkWrites_snd_le (write : MessageBatch → Bool)
    (batches : List MessageBatch) :
    (sinkWrites write batches).2 ≤ batches.length := by
  rw [sinkWrites_snd_eq_filter]
  exact List.length_filter_le write batches

theorem sinkWrites_snd_lt_of_fail (write : MessageBatch → Bool)
    (batches : List MessageBatch) (b : MessageBatch) (hb : b ∈ batches)
    (hw : write b = false) :
    (sinkWrites write batches).2 < batches.length := by
  rw [sinkWrites_snd_eq_filter]
  induction batches with
  | nil => cases hb
  | cons x xs ih =>
    rcases List.mem_cons.mp hb with h | h
    · subst h
      simp only [List.filter, hw]
      exact Nat.lt_succ_of_le (List.length_filter_le write xs)
    · by_cases hx : write x <;> simp only [List.filter, hx]
      · simpa using Nat.succ_lt_succ (ih h)
      · exact Nat.lt_succ_of_lt (ih h)

theorem drainPopBack_eq_reverse : ∀ q : List α, drainPopBack q = q.reverse := by
  intro q
  induction q with
  | nil => rfl
  | cons x xs ih => simp [drainPopBack, ih]

theorem drainPopBack_length (q : List α) : (drainPopBack q).length = q.length := by
  rw [drainPopBack_eq_reverse, List.length_reverse]

theorem all_schema_map (ms : List MessageBatch) (s : Nat) :
    ((ms.map MessageBatch.toRecordBatch).all (fun rb => rb.schemaId == s)) =
    (ms.all (fun m => m.schema == s)) := by
  induction ms with
  | nil => rfl
  | cons m rest ih =>
    simp only [List.map_cons, List.all_cons, ih, MessageBatch.schema]

theorem attemptError_eq_none_iff (r : AttemptResult) :
    attemptError r = none ↔ r = AttemptResult.success := by
  cases r <;> simp [attemptError]

/-! ## Claim theorems -/

/-- C1: for every `(outputBatches, ack)` pair received by the sink loop in
`Stream::run`, the sink calls `output.write` on each batch in the list (in
order), counts successful writes, and invokes `ack()` exactly once if and
only if the success count equals the length of `outputBatches`; if any write
fails, `ack` is never invoked for that pair. -/
theorem sink_acks_iff_all_writes_succeed
    (write : MessageBatch → Bool) (batches : List MessageBatch) :
    (sinkWrites write batches).1 = batches ∧
    (sinkWrites write batches).2 = (batches.filter write).length ∧
    (sinkAckCount write batches = 1 ↔
      (sinkWrites write batches).2 = batches.length) ∧
    sinkAckCount write batches ≤ 1 ∧
    ((∃ b ∈ batches, write b = false) → sinkAckCount write batches = 0) := by
  refine ⟨sinkWrites_fst write batches, sinkWrites_snd_eq_filter write batches, ?_, ?_, ?_⟩
  · unfold sinkAckCount
    by_cases h : batches.length = (sinkWrites write batches).2 <;> simp [h]
    omega
  · unfold sinkAckCount
    by_cases h : batches.length = (sinkWrites write batches).2 <;> simp [h]
  · rintro ⟨b, hb, hw⟩
    unfold sinkAckCount
    have hlt := sinkWrites_snd_lt_of_fail write batches b hb hw
    have : batches.length ≠ (sinkWrites write batches).2 := by omega
    simp [this]

/-- C1 witness: a pair with two batches of which the second write fails is
not acked; the theorem is applied at that concrete input. -/
theorem sink_acks_iff_all_writes_succeed_witness :
    sinkAckCount (fun m => m.len == 1)
      [MessageBatch.new_binary [[7]], MessageBatch.new_binary []] = 0 :=
  (sink_acks_iff_all_writes_succeed (fun m => m.len == 1)
      [MessageBatch.new_binary [[7]], MessageBatch.new_binary []]).2.2.2.2
    ⟨MessageBatch.new_binary [], by decide, by decide⟩

/-- C2 counterexample: when the input's `close` fails, `Stream::close`
returns that error at once — `close` is called on the input only, and
neither the pipeline's nor the output's `close` runs, contradicting the
claim that an error does not prevent close from being called on the
remaining components (nor is any buffer closed: no buffer exists). -/
theorem close_input_error_stops_remaining_closes :
    (Stream.close (fun c => match c with
        | Component.input => Except.error "input close failed"
        | _ => Except.ok ())).2 = [Component.input] ∧
    Component.pipeline ∉ (Stream.close (fun c => match c with
        | Component.input => Except.error "input close failed"
        | _ => Except.ok ())).2 ∧
    Component.output ∉ (Stream.close (fun c => match c with
        | Component.input => Except.error "input close failed"
        | _ => Except.ok ())).2 := by
  refine ⟨rfl, ?_, ?_⟩ <;> decide

/-- C2 amended: `Stream::close` attempts `close` on input, then pipeline,
then output, in that order (there is no buffer component); the first error
is returned immediately via `?`, so `close` is not called on the components
after the failing one, and the overall result is `Ok` exactly when every
component's `close` succeeds. -/
theorem close_order_and_early_abort (res : Component → Except String Unit) :
    (Stream.close res).2 =
      Component.input ::
        (match res Component.input with
         | Except.error _ => []
         | Except.ok _ =>
           Component.pipeline ::
             (match res Component.pipeline with
              | Except.error _ => []
              | Except.ok _ => [Component.output])) ∧
    ((Stream.close res).1 = Except.ok () ↔
      ∀ c : Component, res c = Except.ok ()) := by
  constructor
  · unfold Stream.close
    rcases h1 : res Component.input with e1 | u1 <;> simp [h1]
    rcases h2 : res Component.pipeline with e2 | u2 <;> simp [h2]
    rcases h3 : res Component.output with e3 | u3 <;> simp [h3]
  · constructor
    · intro h c
      unfold Stream.close at h
      rcases h1 : res Component.input with e1 | u1 <;> rw [h1] at h
      · cases h
      rcases h2 : res Component.pipeline with e2 | u2 <;> rw [h2] at h
      · cases h
      rcases h3 : res Component.output with e3 | u3 <;> rw [h3] at h
      · cases h
      cases c
      · rw [h1]
      · rw [h2]
      · rw [h3]
    · intro h
      unfold Stream.close
      rw [h Component.input, h Component.pipeline, h Component.output]

/-- C2 amended witness: with every component's close succeeding, the close
order is input, pipeline, output and the result is `Ok`; the amended theorem
is applied at that concrete input. -/
theorem close_order_and_early_abort_witness :
    (Stream.close (fun _ => Except.ok ())).2 =
      [Component.input, Component.pipeline, Component.output] ∧
    (Stream.close (fun _ => Except.ok ())).1 = Except.ok () := by
  have h := close_order_and_early_abort (fun _ => Except.ok ())
  exact ⟨h.1, h.2.mpr (fun _ => rfl)⟩

/-- C3 counterexample: the `StreamConfig` struct declares exactly the serde
fields `input`, `pipeline`, `output` — it does not accept a `buffer` field,
contradicting the claim that a stream configuration accepts an optional
buffer field wired between the workers and the sink. -/
theorem streamconfig_buffer_field_absent :
    "buffer" ∉ StreamConfig.fieldNames := by
  decide

/-- C3 amended: the stream configuration has no buffer field (its fields are
exactly input, pipeline, output), the `Stream` struct holds no buffer (its
fields are exactly input, pipeline, output, thread_num), and `Stream::run`
wires no buffer: the sink consumes `(outputBatches, ack)` pairs directly
from the OUT queue, acking exactly those pairs whose writes all succeed. -/
theorem stream_has_no_buffer_and_sink_reads_out_directly :
    StreamConfig.fieldNames = ["input", "pipeline", "output"] ∧
    Stream.fieldNames = ["input", "pipeline", "output", "thread_num"] ∧
    "buffer" ∉ StreamConfig.fieldNames ∧
    "buffer" ∉ Stream.fieldNames ∧
    (∀ (write : MessageBatch → Bool) (outs : List (List MessageBatch × AckId)),
      sinkRun write outs =
        (outs.filter
          (fun p => p.1.length == (sinkWrites write p.1).2)).map Prod.snd) := by
  refine ⟨rfl, rfl, by decide, by decide, ?_⟩
  intro write outs
  induction outs with
  | nil => rfl
  | cons p rest ih =>
    rcases p with ⟨batches, ack⟩
    by_cases h : batches.length = (sinkWrites write batches).2
    · have hb : (batches.length == (sinkWrites write batches).2) = true :=
        beq_iff_eq.mpr h
      simp [sinkRun, List.filter, h, ih, hb]
    · have hb : (batches.length == (sinkWrites write batches).2) = false :=
        beq_eq_false_iff_ne.mpr h
      simp [sinkRun, List.filter, h, ih, hb]

/-- C4: `Stream::run` creates the IN and OUT queues with capacity exactly
`thread_num * 4` each; a bounded send never grows a queue past its capacity,
so the items held in the two queues together never exceed `8 * thread_num`. -/
theorem queue_capacities_bound (threadNum : Nat) :
    inQueueCapacity threadNum = 4 * threadNum ∧
    outQueueCapacity threadNum = 4 * threadNum ∧
    (∀ (q : List (MessageBatch × AckId)) (x : MessageBatch × AckId)
        (q' : List (MessageBatch × AckId)),
        boundedSend (inQueueCapacity threadNum) q x = some q' →
        q'.length ≤ inQueueCapacity threadNum) ∧
    (∀ (q : List (List MessageBatch × AckId)) (x : List MessageBatch × AckId)
        (q' : List (List MessageBatch × AckId)),
        boundedSend (outQueueCapacity threadNum) q x = some q' →
        q'.length ≤ outQueueCapacity threadNum) ∧
    (∀ (inQ : List (MessageBatch × AckId))
        (outQ : List (List MessageBatch × AckId)),
        inQ.length ≤ inQueueCapacity threadNum →
        outQ.length ≤ outQueueCapacity threadNum →
        inQ.length + outQ.length ≤ 8 * threadNum) := by
  have hsend : ∀ (α : Type) (cap : Nat) (q : List α) (x : α) (q' : List α),
      boundedSend cap q x = some q' → q'.length ≤ cap := by
    intro α cap q x q' h
    unfold boundedSend at h
    by_cases hc : q.length < cap
    · rw [if_pos hc] at h
      cases h
      simp only [List.length_append, List.length_singleton]
      omega
    · rw [if_neg hc] at h
      cases h
  refine ⟨rfl.trans (Nat.mul_comm _ _), rfl.trans (Nat.mul_comm _ _), ?_, ?_, ?_⟩
  · intro q x q' h
    exact hsend _ _ q x q' h
  · intro q x q' h
    exact hsend _ _ q x q' h
  · intro inQ outQ h1 h2
    unfold inQueueCapacity at h1
    unfold outQueueCapacity at h2
    omega

/-- C4 witness: at `thread_num = 2` the capacities are 8 and 8, a successful
bounded send into the empty IN queue stays within capacity, and two queues
at their bounds hold at most 16 items; the theorem is applied at those
concrete inputs. -/
theorem queue_capacities_bound_witness :
    inQueueCapacity 2 = 4 * 2 ∧
    ([] ++ [(MessageBatch.new_binary [], (0 : AckId))]).length ≤
      inQueueCapacity 2 ∧
    ([(MessageBatch.new_binary [], (0 : AckId))].length +
      ([] : List (List MessageBatch × AckId)).length ≤ 8 * 2) :=
  ⟨(queue_capacities_bound 2).1,
   (queue_capacities_bound 2).2.2.1 [] (MessageBatch.new_binary [], 0) _ rfl,
   (queue_capacities_bound 2).2.2.2.2 [(MessageBatch.new_binary [], 0)] []
     (by decide) (by decide)⟩

/-- Auxiliary for C5: run against a trace of `connect` outcomes whose first
success is at index `i`, the reconnect loop makes exactly `i + 1` attempts
and sleeps 5 seconds after each of the `i` failed attempts. -/
theorem reconnectLoop_first_success :
    ∀ (outcomes : List Bool) (i : Nat),
      (∀ j, j < i → outcomes.getD j true = false) →
      outcomes.getD i false = true →
      reconnectLoop outcomes = some (i + 1) ∧
      reconnectSleeps outcomes = List.replicate i 5 := by
  intro outcomes
  induction outcomes with
  | nil =>
    intro i _ hsucc
    simp [List.getD] at hsucc
  | cons b bs ih =>
    intro i hbefore hsucc
    cases i with
    | zero =>
      have hb : b = true := by simpa using hsucc
      simp [reconnectLoop, reconnectSleeps, hb]
    | succ i =>
      have hb : b = false := by
        have := hbefore 0 (Nat.succ_pos i)
        simpa using this
      have hsucc' : bs.getD i false = true := by simpa using hsucc
      have hbefore' : ∀ j, j < i → bs.getD j true = false := by
        intro j hj
        have := hbefore (j + 1) (Nat.succ_lt_succ hj)
        simpa using this
      rcases ih i hbefore' hsucc' with ⟨h1, h2⟩
      constructor
      · simp [reconnectLoop, hb, h1]
      · simp [reconnectSleeps, hb, h2, List.replicate_succ]

/-- C5: a `Disconnection` read error sends the ingest task into the
reconnect loop (it neither terminates the task nor breaks the read loop);
against a `connect` trace whose first success is attempt `i` (0-based), the
loop makes exactly `i + 1` connect attempts, sleeps 5 seconds after each of
the `i` failed attempts, and exits on the first success. -/
theorem disconnection_enters_reconnect_loop (outcomes : List Bool) (i : Nat)
    (hbefore : ∀ j, j < i → outcomes.getD j true = false)
    (hsucc : outcomes.getD i false = true) :
    handleReadError Error.Disconnection = IngestErrAction.reconnectThenResume ∧
    handleReadError Error.Disconnection ≠ IngestErrAction.terminate ∧
    handleReadError Error.Disconnection ≠ IngestErrAction.finishClean ∧
    reconnectLoop outcomes = some (i + 1) ∧
    reconnectSleeps outcomes = List.replicate i 5 := by
  rcases reconnectLoop_first_success outcomes i hbefore hsucc with ⟨h1, h2⟩
  exact ⟨rfl, by decide, by decide, h1, h2⟩

/-- C5 witness: two failed connect attempts followed by a success give three
attempts and two 5 second sleeps; the theorem is applied at that concrete
trace. -/
theorem disconnection_enters_reconnect_loop_witness :
    reconnectLoop [false, false, true] = some 3 ∧
    reconnectSleeps [false, false, true] = List.replicate 2 5 := by
  have h := disconnection_enters_reconnect_loop [false, false, true] 2
    (by decide) (by decide)
  exact ⟨h.2.2.2.1, h.2.2.2.2⟩

/-- C6: when `pipeline.process` returns an error for an input batch, the
worker logs it and sends nothing to the OUT queue for that batch, invokes no
ack (the worker invokes no acks in any branch), and continues its loop with
the remaining input batches unchanged. -/
theorem worker_drops_errored_batch
    (process : MessageBatch → Except Error (List MessageBatch))
    (msg : MessageBatch) (ack : AckId) (rest : List (MessageBatch × AckId))
    (e : Error) (h : process msg = Except.error e) :
    workerRun process ((msg, ack) :: rest) = workerRun process rest ∧
    workerAcks process ((msg, ack) :: rest) = [] := by
  constructor
  · simp [workerRun, h]
  · rfl

/-- C6 witness: a pipeline that rejects empty batches drops the errored
batch and still emits the following good batch; the theorem is applied at
that concrete input. -/
theorem worker_drops_errored_batch_witness :
    workerRun
      (fun m => if m.len == 0
        then Except.error (Error.Process "empty batch")
        else Except.ok [m])
      [(MessageBatch.new_binary [], 3), (MessageBatch.new_binary [[1]], 7)] =
    workerRun
      (fun m => if m.len == 0
        then Except.error (Error.Process "empty batch")
        else Except.ok [m])
      [(MessageBatch.new_binary [[1]], 7)] :=
  (worker_drops_errored_batch
    (fun m => if m.len == 0
      then Except.error (Error.Process "empty batch")
      else Except.ok [m])
    (MessageBatch.new_binary []) 3 [(MessageBatch.new_binary [[1]], 7)]
    (Error.Process "empty batch") rfl).1

/-- C7: a successful `MemoryBuffer::read` (via `process_messages`) on a
nonempty queue drains the entire queue, leaving it empty; it returns one
batch merged from all `N` drained batches under the schema of the first
drained batch when every batch has that schema, and a `Process` error when
the schemas are incompatible; the aggregate `ArrayAck` carries all `N`
constituent acks, and one call to `ack()` invokes each of them exactly once
while zero calls invoke none. -/
theorem memory_buffer_read_drains_merges_fans_out
    (q : List (MessageBatch × AckId)) (hq : q ≠ []) :
    (process_messages q).2 = [] ∧
    ((drainPopBack q).map Prod.snd).length = q.length ∧
    (((drainPopBack q).map Prod.fst).all
        (fun m => m.schema ==
          (((drainPopBack q).map Prod.fst).headD
             (MessageBatch.new_binary [])).schema) = true →
      (process_messages q).1 = Except.ok (some
        (MessageBatch.new_arrow
          { schemaId := (((drainPopBack q).map Prod.fst).headD
              (MessageBatch.new_binary [])).schema,
            numRows := (((drainPopBack q).map Prod.fst).map
              (fun m => m.toRecordBatch.numRows)).sum },
         { acks := (drainPopBack q).map Prod.snd }))) ∧
    (((drainPopBack q).map Prod.fst).all
        (fun m => m.schema ==
          (((drainPopBack q).map Prod.fst).headD
             (MessageBatch.new_binary [])).schema) = false →
      (process_messages q).1 =
        Except.error (Error.Process
          ("Merge batches failed: " ++ "batches have different schemas"))) ∧
    (∀ aa : ArrayAck, aa.ackCalls 1 = aa.acks ∧ aa.ackCalls 0 = []) := by
  have hqe : q.isEmpty = false := by
    cases q with
    | nil => exact absurd rfl hq
    | cons a l => rfl
  have hlen : (drainPopBack q).length = q.length := drainPopBack_length q
  have hacks : ∀ aa : ArrayAck, aa.ackCalls 1 = aa.acks ∧ aa.ackCalls 0 = [] := by
    intro aa
    constructor
    · simp [ArrayAck.ackCalls, ArrayAck.ack]
    · rfl
  cases hd : drainPopBack q with
  | nil =>
    exfalso
    rw [hd] at hlen
    cases q with
    | nil => exact hq rfl
    | cons a l => simp at hlen
  | cons p drest =>
    obtain ⟨m0, a0⟩ := p
    have hlen2 : (List.map Prod.snd ((m0, a0) :: drest)).length = q.length := by
      rw [hd] at hlen
      simpa using hlen
    have hc : (((m0 :: drest.map Prod.fst).map MessageBatch.toRecordBatch).all
          (fun rb => rb.schemaId == m0.schema)) =
        ((m0 :: drest.map Prod.fst).all (fun m => m.schema == m0.schema)) :=
      all_schema_map (m0 :: drest.map Prod.fst) m0.schema
    have hpm : process_messages q =
        (match concatBatches m0.schema
            ((m0 :: drest.map Prod.fst).map MessageBatch.toRecordBatch) with
          | Except.error e =>
            (Except.error (Error.Process ("Merge batches failed: " ++ e)),
             ([] : List (MessageBatch × AckId)))
          | Except.ok nb =>
            (Except.ok (some (MessageBatch.new_arrow nb,
              ({ acks := a0 :: drest.map Prod.snd } : ArrayAck))), [])) := by
      unfold process_messages
      rw [hd]
      simp [hqe]
    by_cases hall :
        ((m0 :: drest.map Prod.fst).all (fun m => m.schema == m0.schema)) = true
    · have hconcat : concatBatches m0.schema
          ((m0 :: drest.map Prod.fst).map MessageBatch.toRecordBatch) =
          Except.ok ⟨m0.schema, (((m0 :: drest.map Prod.fst).map MessageBatch.toRecordBatch).map RecordBatch.numRows).sum⟩ := by
        unfold concatBatches
        rw [hc, hall]
        simp
      refine ⟨?_, hlen2, ?_, ?_, hacks⟩
      · rw [hpm, hconcat]
      · intro _
        rw [hpm, hconcat]
        simp [List.map_map, Function.comp_def]
      · intro hfalse
        simp only [List.map_cons, List.headD_cons] at hfalse
        rw [hall] at hfalse
        cases hfalse
    · have hallf : ((m0 :: drest.map Prod.fst).all
          (fun m => m.schema == m0.schema)) = false := by
        cases h : ((m0 :: drest.map Prod.fst).all (fun m => m.schema == m0.schema))
        · rfl
        · exact absurd h hall
      have hconcat : concatBatches m0.schema
          ((m0 :: drest.map Prod.fst).map MessageBatch.toRecordBatch) =
          Except.error "batches have different schemas" := by
        unfold concatBatches
        rw [hc, hallf]
        simp
      refine ⟨?_, hlen2, ?_, ?_, hacks⟩
      · rw [hpm, hconcat]
      · intro htrue
        simp only [List.map_cons, List.headD_cons] at htrue
        rw [hallf] at htrue
        cases htrue
      · intro _
        rw [hpm, hconcat]

/-- C7 witness: a queue of two binary batches (same schema) drains to the
empty queue and merges into one two-row Arrow batch whose aggregate ack
carries both source acks; the theorem is applied at that concrete queue. -/
theorem memory_buffer_read_drains_merges_fans_out_witness :
    (process_messages [(MessageBatch.new_binary [[1]], 10),
        (MessageBatch.new_binary [[2]], 11)]).2 = [] ∧
    (process_messages [(MessageBatch.new_binary [[1]], 10),
        (MessageBatch.new_binary [[2]], 11)]).1 = Except.ok (some
      (MessageBatch.new_arrow { schemaId := 0, numRows := 2 },
       { acks := [11, 10] })) := by
  have h := memory_buffer_read_drains_merges_fans_out
    [(MessageBatch.new_binary [[1]], 10), (MessageBatch.new_binary [[2]], 11)]
    (by decide)
  refine ⟨h.1, ?_⟩
  have := h.2.2.1 (by decide)
  simpa using this

/-- Auxiliary for C8: over any attempt window of `r ≥ 1` permitted attempts
starting at attempt index `k`, the retry loop makes between 1 and `r`
attempts, sleeps `100 * 2^(k+i)` ms before the `i`-th retry of the window,
and, when every attempt in the window fails, returns the last attempt's
error. -/
theorem sendAux_spec (outcomes : Nat → AttemptResult) :
    ∀ (r k : Nat), 1 ≤ r →
      1 ≤ (sendAux outcomes r k).1 ∧
      (sendAux outcomes r k).1 ≤ r ∧
      (sendAux outcomes r k).2.1 =
        (List.range ((sendAux outcomes r k).1 - 1)).map
          (fun i => 100 * 2 ^ (k + i)) ∧
      ((∀ j, j < r → attemptError (outcomes (k + j)) ≠ none) →
        ∃ e, attemptError (outcomes (k + (r - 1))) = some e ∧
          (sendAux outcomes r k).2.2 = Except.error e) := by
  intro r
  induction r with
  | zero =>
    intro k h
    exact absurd h (by omega)
  | succ n ih =>
    intro k _
    cases n with
    | zero =>
      cases hA : attemptError (outcomes k) with
      | none =>
        refine ⟨by simp [sendAux, hA], by simp [sendAux, hA],
          by simp [sendAux, hA], ?_⟩
        intro hfail
        have h0 := hfail 0 (by omega)
        rw [Nat.add_zero] at h0
        exact absurd hA h0
      | some e =>
        refine ⟨by simp [sendAux, hA], by simp [sendAux, hA],
          by simp [sendAux, hA], ?_⟩
        intro _
        refine ⟨e, ?_, by simp [sendAux, hA]⟩
        simpa using hA
    | succ m =>
      cases hA : attemptError (outcomes k) with
      | none =>
        refine ⟨by simp [sendAux, hA], by simp [sendAux, hA],
          by simp [sendAux, hA], ?_⟩
        intro hfail
        have h0 := hfail 0 (by omega)
        rw [Nat.add_zero] at h0
        exact absurd hA h0
      | some e0 =>
        rcases ih (k + 1) (by omega) with ⟨ih1, ih2, ih3, ih4⟩
        have hred : sendAux outcomes (m + 1 + 1) k =
            ((sendAux outcomes (m + 1) (k + 1)).1 + 1,
             100 * 2 ^ k :: (sendAux outcomes (m + 1) (k + 1)).2.1,
             (sendAux outcomes (m + 1) (k + 1)).2.2) := by
          simp [sendAux, hA]
        refine ⟨?_, ?_, ?_, ?_⟩
        · rw [hred]
          exact Nat.succ_le_succ (Nat.zero_le _)
        · rw [hred]
          exact Nat.succ_le_succ ih2
        · rw [hred]
          show 100 * 2 ^ k :: (sendAux outcomes (m + 1) (k + 1)).2.1 =
            (List.range ((sendAux outcomes (m + 1) (k + 1)).1 + 1 - 1)).map
              (fun i => 100 * 2 ^ (k + i))
          obtain ⟨a, ha⟩ : ∃ a, (sendAux outcomes (m + 1) (k + 1)).1 = a + 1 :=
            ⟨(sendAux outcomes (m + 1) (k + 1)).1 - 1, by omega⟩
          rw [ih3, ha]
          simp only [Nat.add_sub_cancel, List.range_succ_eq_map, List.map_cons,
            List.map_map, Nat.add_zero]
          congr 1
          apply List.map_congr_left
          intro i _
          simp only [Function.comp_apply]
          have harr : k + 1 + i = k + (i + 1) := by omega
          rw [harr]
        · intro hfail
          have hfail2 : ∀ j, j < m + 1 →
              attemptError (outcomes (k + 1 + j)) ≠ none := by
            intro j hj
            have hx := hfail (j + 1) (by omega)
            have harr : k + (j + 1) = k + 1 + j := by omega
            rw [harr] at hx
            exact hx
          rcases ih4 hfail2 with ⟨e, he1, he2⟩
          refine ⟨e, ?_, ?_⟩
          · have harr : k + 1 + (m + 1 - 1) = k + (m + 1 + 1 - 1) := by omega
            rw [← harr]
            exact he1
          · rw [hred]
            exact he2

/-- C8: for every payload, the retry loop of `HttpOutput::send` makes at
most `retry_count + 1` request attempts, sleeps `100 * 2^(k-1)` milliseconds
before the `k`-th retry (the sleeps are, in order, 100, 200, 400, ... ms),
and when no attempt succeeds it returns the last attempt's error to the
caller rather than succeeding silently. -/
theorem http_send_bounded_retries (retry_count_config : Nat)
    (outcomes : Nat → AttemptResult) :
    (HttpOutput.send retry_count_config outcomes).1 ≤ retry_count_config + 1 ∧
    (HttpOutput.send retry_count_config outcomes).2.1 =
      (List.range ((HttpOutput.send retry_count_config outcomes).1 - 1)).map
        (fun k => 100 * 2 ^ k) ∧
    ((∀ k, k ≤ retry_count_config → outcomes k ≠ AttemptResult.success) →
      ∃ e, attemptError (outcomes retry_count_config) = some e ∧
        (HttpOutput.send retry_count_config outcomes).2.2 = Except.error e) := by
  rcases sendAux_spec outcomes (retry_count_config + 1) 0 (by omega) with
    ⟨h1, h2, h3, h4⟩
  refine ⟨h2, ?_, ?_⟩
  · unfold HttpOutput.send
    rw [h3]
    simp [Nat.zero_add]
  · intro hfail
    have hfail2 : ∀ j, j < retry_count_config + 1 →
        attemptError (outcomes (0 + j)) ≠ none := by
      intro j hj
      rw [Nat.zero_add]
      intro hn
      exact hfail j (by omega) ((attemptError_eq_none_iff _).mp hn)
    rcases h4 hfail2 with ⟨e, he1, he2⟩
    refine ⟨e, ?_, he2⟩
    have harr : (0 : Nat) + (retry_count_config + 1 - 1) = retry_count_config := by
      omega
    rw [harr] at he1
    exact he1

/-- C8 witness: with a configured retry count of 1 and every attempt failing
with a transport error, the loop makes at most two attempts and returns the
connection error of the last attempt; the theorem is applied at that
concrete configuration. -/
theorem http_send_bounded_retries_witness :
    (HttpOutput.send 1 (fun _ => AttemptResult.requestError "refused")).1 ≤ 2 ∧
    (∃ e, attemptError (AttemptResult.requestError "refused") = some e ∧
      (HttpOutput.send 1 (fun _ => AttemptResult.requestError "refused")).2.2 =
        Except.error e) :=
  ⟨(http_send_bounded_retries 1 (fun _ => AttemptResult.requestError "refused")).1,
   (http_send_bounded_retries 1 (fun _ => AttemptResult.requestError "refused")).2.2
     (fun _ _ h => AttemptResult.noConfusion h)⟩

/-- C9: registering a buffer builder under a type tag already present is
rejected as a fatal error (a panic, modelled as `none`) — the second
registration does not replace the first; a successful registration only
happens for a fresh tag, appends the new entry keeping every existing one,
and preserves uniqueness of the tags in the map; building from a config
whose type tag is unregistered yields a `Config` error. -/
theorem registry_rejects_duplicate_and_unknown
    (builders : List (String × BufferBuilderId)) (type_name : String)
    (builder : BufferBuilderId) (c : BufferConfig) :
    (type_name ∈ builders.map Prod.fst →
      register_buffer_builder builders type_name builder = none) ∧
    (∀ builders2,
      register_buffer_builder builders type_name builder = some builders2 →
      type_name ∉ builders.map Prod.fst ∧
      builders2 = builders ++ [(type_name, builder)] ∧
      ((builders.map Prod.fst).Nodup → (builders2.map Prod.fst).Nodup)) ∧
    (c.buffer_type ∉ builders.map Prod.fst →
      BufferConfig.build builders c =
        Except.error (Error.Config ("Unknown buffer type: " ++ c.buffer_type))) := by
  have hany : (builders.any (fun p => p.1 == type_name)) = true ↔
      type_name ∈ builders.map Prod.fst := by
    rw [List.any_eq_true]
    constructor
    · rintro ⟨p, hp, hb⟩
      have he : p.1 = type_name := by simpa using hb
      exact he ▸ List.mem_map_of_mem Prod.fst hp
    · intro hmem
      rcases List.mem_map.mp hmem with ⟨p, hp, he⟩
      exact ⟨p, hp, by simp [he]⟩
  refine ⟨?_, ?_, ?_⟩
  · intro hmem
    unfold register_buffer_builder
    rw [if_pos (hany.mpr hmem)]
  · intro builders2 hreg
    unfold register_buffer_builder at hreg
    by_cases hmem : type_name ∈ builders.map Prod.fst
    · rw [if_pos (hany.mpr hmem)] at hreg
      cases hreg
    · have hf : (builders.any (fun p => p.1 == type_name)) = false := by
        cases h : builders.any (fun p => p.1 == type_name)
        · rfl
        · exact absurd (hany.mp h) hmem
      rw [if_neg (by simp [hf])] at hreg
      injection hreg with hreg
      refine ⟨hmem, hreg.symm, ?_⟩
      intro hn
      rw [← hreg]
      have hmapp : (builders ++ [(type_name, builder)]).map Prod.fst =
          builders.map Prod.fst ++ [type_name] := by
        simp
      rw [hmapp, List.nodup_append]
      refine ⟨hn, List.nodup_singleton _, ?_⟩
      intro x hx1 hx2
      have hxe : x = type_name := by simpa using hx2
      subst hxe
      exact hmem hx1
  · intro hmem
    unfold BufferConfig.build
    have hfind : builders.find? (fun p => p.1 == c.buffer_type) = none := by
      apply List.find?_eq_none.mpr
      intro p hp
      simp only [beq_eq_false_iff_ne, ne_eq, Bool.not_eq_true, beq_iff_eq]
      intro he
      exact hmem (he ▸ List.mem_map_of_mem Prod.fst hp)
    rw [hfind]

/-- C9 witness: re-registering the already-present tag "memory" is rejected,
and building a config with the unregistered tag "kafka" yields the Config
error; the theorem is applied at those concrete inputs. -/
theorem registry_rejects_duplicate_and_unknown_witness :
    register_buffer_builder [("memory", 0)] "memory" 1 = none ∧
    BufferConfig.build [("memory", 0)] { buffer_type := "kafka" } =
      Except.error (Error.Config ("Unknown buffer type: " ++ "kafka")) :=
  ⟨(registry_rejects_duplicate_and_unknown [("memory", 0)] "memory" 1
      { buffer_type := "kafka" }).1 (by decide),
   (registry_rejects_duplicate_and_unknown [("memory", 0)] "memory" 1
      { buffer_type := "kafka" }).2.2 (by decide)⟩

/-- C10: `MessageBatch::as_binary` is partial at the public interface — on
every Binary batch it returns the payload vector, but on every Arrow batch
it panics (modelled as `none`) instead of returning an error, although both
variants are legal batches with a well-defined `len`. -/
theorem as_binary_panics_on_arrow :
    (∀ v : List Bytes, (MessageBatch.new_binary v).as_binary = some v ∧
      (MessageBatch.new_binary v).len = v.length) ∧
    (∀ rb : RecordBatch, (MessageBatch.new_arrow rb).as_binary = none ∧
      (MessageBatch.new_arrow rb).len = rb.numRows) :=
  ⟨fun _ => ⟨rfl, rfl⟩, fun _ => ⟨rfl, rfl⟩⟩

end Arkflow
